import Mathlib

/-!
Verification of the neo python-ipc core against its natural-language
specification.  Byte strings are modelled as `List Nat` (each element a
byte value), floating-point times and response-time statistics as `Rat`,
and fallible Python code as `Except`-valued functions.  Every definition
is translated from the corresponding Python source in `python-ipc/`.
-/

namespace NeoIPC

/-- A byte string: a list of byte values. -/
abbrev Bytes := List Nat

/-- Read the byte at index `i` (0 when out of range), as Python indexing
under a length guard. -/
def byteAt (data : Bytes) (i : Nat) : Nat := data.getD i 0

/-- Big-endian 2-byte encoding of `n` (Python `struct.pack with format >H`). -/
def u16be (n : Nat) : Bytes := [n / 256 % 256, n % 256]

/-- Big-endian 4-byte encoding of `n` (Python `struct.pack with format >I`,
also `!L` and `!I` of the framing-A header). -/
def u32be (n : Nat) : Bytes :=
  [n / 2 ^ 24 % 256, n / 2 ^ 16 % 256, n / 2 ^ 8 % 256, n % 256]

/-- Big-endian 4-byte read at offset `i` (Python `struct.unpack of >I` on a
4-byte slice, valid under the decoder's length guards). -/
def readU32 (data : Bytes) (i : Nat) : Nat :=
  byteAt data i * 2 ^ 24 + byteAt data (i + 1) * 2 ^ 16 +
    byteAt data (i + 2) * 256 + byteAt data (i + 3)

/-- Flip bit `k` of byte `i` of a buffer (corruption model for the
checksum-sensitivity claim). -/
def flipBit (data : Bytes) (i k : Nat) : Bytes :=
  data.set i (byteAt data i ^^^ 2 ^ k)

/-! ## CRC-32 (zlib.crc32, polynomial 0xEDB88320) -/

/-- One bit step of the reflected CRC-32 computation. -/
def crcBit (c : Nat) : Nat :=
  if c % 2 = 1 then c / 2 ^^^ 0xEDB88320 else c / 2

/-- One byte step: xor the byte into the low bits, then eight bit steps. -/
def crcByte (c b : Nat) : Nat :=
  crcBit (crcBit (crcBit (crcBit (crcBit (crcBit (crcBit (crcBit (c ^^^ b % 256))))))))

/-- `zlib.crc32(data) & 0xFFFFFFFF`. -/
def crc32 (data : Bytes) : Nat :=
  data.foldl crcByte 0xFFFFFFFF ^^^ 0xFFFFFFFF

/-! ## Framing B: discovery/protocol.py (`pack_message` / `unpack_response`) -/

/-- The failure cases of `IPCProtocolError` raised by `unpack_response`,
one constructor per raise site (the decoder has no checksum check and
hence no checksum-mismatch failure). -/
inductive IPCErr where
  | shortMagic
  | badMagic
  | shortVersion
  | badVersion
  | shortBodyLen
  | incompleteBody
  | jsonParseFailed
deriving DecidableEq, Repr

/-- `pack_message(method, params)` from `discovery/protocol.py`: magic
0xAEBD, version 1, length-prefixed message id (a 36-character UUID string,
passed here as the `msgId` parameter), length-prefixed method name, the
JSON-serialized parameters (passed here already serialized as `param`),
and a trailing CRC-32 over everything preceding. -/
def pack_message (msgId method param : Bytes) : Bytes :=
  let pre := [0xAE, 0xBD, 0x01] ++ u16be msgId.length ++ msgId ++
    u16be method.length ++ method ++ u32be param.length ++ param
  pre ++ u32be (crc32 pre)

/-- `unpack_response(data)` from `discovery/protocol.py`, parameterized by
the JSON parser `jsonLoads` (Python `json.loads`; `none` models a
`JSONDecodeError`).  It checks magic and version, reads a 4-byte
big-endian body length, slices exactly that many bytes from offset 7, and
JSON-decodes them.  It verifies no checksum and ignores bytes past
`7 + bodyLen`. -/
def unpack_response {J : Type} (jsonLoads : Bytes → Option J) (data : Bytes) :
    Except IPCErr J :=
  if data.length < 2 then .error .shortMagic
  else if byteAt data 0 * 256 + byteAt data 1 ≠ 0xAEBD then .error .badMagic
  else if data.length < 3 then .error .shortVersion
  else if byteAt data 2 ≠ 1 then .error .badVersion
  else if data.length < 7 then .error .shortBodyLen
  else
    let bodyLen := readU32 data 3
    if data.length < 7 + bodyLen then .error .incompleteBody
    else
      match jsonLoads ((data.drop 7).take bodyLen) with
      | some j => .ok j
      | none => .error .jsonParseFailed

/-- A concrete 36-byte UUID string (ASCII of a version-4 UUID with zero
random bits), used as a sample message id. -/
def uuid0 : Bytes :=
  [48, 48, 48, 48, 48, 48, 48, 48, 45, 48, 48, 48, 48, 45, 52, 48, 48, 48,
   45, 56, 48, 48, 48, 45, 48, 48, 48, 48, 48, 48, 48, 48, 48, 48, 48, 48]

/-! ## Framing A: protocol/protocol.py (`Protocol.pack` / `Protocol.unpack`) -/

/-- `MessageType` (IntEnum) from `protocol/protocol.py`. -/
inductive MessageType where
  | request
  | response
  | error
  | heartbeat
deriving DecidableEq, Repr

/-- The integer value of a `MessageType`. -/
def MessageType.toByte : MessageType → Nat
  | .request => 1
  | .response => 2
  | .error => 3
  | .heartbeat => 4

/-- `MessageType(n)`: `none` models the `ValueError` raised on an unknown
value. -/
def MessageType.ofByte : Nat → Option MessageType
  | 1 => some .request
  | 2 => some .response
  | 3 => some .error
  | 4 => some .heartbeat
  | _ => none

/-- `Priority` (IntEnum) from `protocol/protocol.py`. -/
inductive Priority where
  | low
  | normal
  | high
  | urgent
deriving DecidableEq, Repr

/-- The integer value of a `Priority`. -/
def Priority.toByte : Priority → Nat
  | .low => 0
  | .normal => 1
  | .high => 2
  | .urgent => 3

/-- `Priority(n)`: `none` models the `ValueError` raised on an unknown
value. -/
def Priority.ofByte : Nat → Option Priority
  | 0 => some .low
  | 1 => some .normal
  | 2 => some .high
  | 3 => some .urgent
  | _ => none

/-- The compression algorithms of `CompressionManager` in
`protocol/compression.py`. -/
inductive CompAlg where
  | none
  | gzip
  | zstd
  | lz4
deriving DecidableEq, Repr

/-- `ord(self.compression[0])`: the first letter of the algorithm name, as
stored in the header's compression byte by `MessageHeader.pack`. -/
def CompAlg.firstByte : CompAlg → Nat
  | .none => 110
  | .gzip => 103
  | .zstd => 122
  | .lz4 => 108

/-- Python `chr(c).lower()` restricted to byte values: ASCII uppercase and
Latin-1 uppercase letters map down by 32, everything else is unchanged. -/
def lowerByte (c : Nat) : Nat :=
  if 65 ≤ c ∧ c ≤ 90 then c + 32
  else if 192 ≤ c ∧ c ≤ 222 ∧ c ≠ 215 then c + 32
  else c

/-- `comp_map.get(chr(compression).lower(), 'none')` from
`MessageHeader.unpack`. -/
def compOfByte (c : Nat) : CompAlg :=
  let lc := lowerByte c
  if lc = 110 then .none
  else if lc = 103 then .gzip
  else if lc = 122 then .zstd
  else if lc = 108 then .lz4
  else .none

/-- Whether a byte in `0x80..0xBF` is a UTF-8 continuation byte. -/
def utf8Cont (b : Nat) : Bool := 128 ≤ b && b ≤ 191

/-- The byte length of a valid UTF-8 code point at the head of the
string (rejecting overlong forms, surrogates and values above U+10FFFF
as CPython does), or `none` when the head is not a valid code point. -/
def utf8CharLen : Bytes → Option Nat
  | [] => Option.none
  | b :: rest =>
    if b < 128 then some 1
    else if b < 194 then Option.none
    else if b < 224 then
      match rest with
      | c :: _ => if utf8Cont c then some 2 else Option.none
      | [] => Option.none
    else if b < 240 then
      match rest with
      | c :: d :: _ =>
        if (if b = 224 then 160 ≤ c && c ≤ 191
            else if b = 237 then 128 ≤ c && c ≤ 159
            else utf8Cont c) && utf8Cont d then some 3 else Option.none
      | _ => Option.none
    else if b < 245 then
      match rest with
      | c :: d :: e :: _ =>
        if (if b = 240 then 144 ≤ c && c ≤ 191
            else if b = 244 then 128 ≤ c && c ≤ 143
            else utf8Cont c) && utf8Cont d && utf8Cont e then some 4
        else Option.none
      | _ => Option.none
    else Option.none

/-- Validation loop: repeatedly consume one code point; the fuel bounds
the number of code points (each consumes at least one byte, so the byte
count suffices). -/
def utf8ValidRun : Nat → Bytes → Bool
  | _, [] => true
  | 0, _ :: _ => false
  | fuel + 1, b :: rest =>
    match utf8CharLen (b :: rest) with
    | some n => utf8ValidRun fuel ((b :: rest).drop n)
    | Option.none => false

/-- UTF-8 validity of a byte string, modelling whether Python
`bytes.decode()` succeeds. -/
def utf8Valid (l : Bytes) : Bool := utf8ValidRun l.length l

/-- Python `str.strip` of NUL characters: drop zero bytes from both ends
(`trace_id.decode().strip` with a NUL argument in `MessageHeader.unpack`). -/
def stripNul (l : Bytes) : Bytes :=
  ((l.dropWhile (· = 0)).reverse.dropWhile (· = 0)).reverse

/-- Python `struct.pack` of a value into a `36s` field: truncate to 36
bytes and pad with NULs. -/
def fit36 (l : Bytes) : Bytes :=
  l.take 36 ++ List.replicate (36 - l.length) 0

/-- The decoded framing-A message header (`MessageHeader` dataclass);
`traceId` holds the decoded, NUL-stripped trace-id bytes. -/
structure MessageHeader where
  version : Nat
  msgType : MessageType
  compression : CompAlg
  priority : Priority
  traceId : Bytes
  timestamp : Nat
  payloadSize : Nat
  checksum : Nat
deriving DecidableEq, Repr

/-- A decoded framing-A message (`Message` dataclass). -/
structure Message where
  header : MessageHeader
  payload : Bytes
deriving DecidableEq, Repr

/-- The failure cases of `ProtocolError` raised while unpacking, one
constructor per raise site reachable from `Protocol.unpack` (Python wraps
them all in `ProtocolError`). -/
inductive UnpackErr where
  | headerTooShort
  | badMsgType
  | badPriority
  | badTraceUtf8
  | sizeMismatch
  | checksumFailed
  | decompressFailed
deriving DecidableEq, Repr

/-- `MessageHeader.HEADER_SIZE`: `struct.calcsize` of the header format
`!BBBB36sLIL` = 4 + 36 + 4 + 4 + 4. -/
def HEADER_SIZE : Nat := 52

/-- `MessageHeader.pack` with the given field values: the byte layout
`!BBBB36sLIL` (version, type, compression letter, priority, 36-byte
trace id, 4-byte timestamp, 4-byte payload size, 4-byte checksum, all
big-endian). -/
def headerPack (version typeByte compByte prioByte : Nat) (traceId : Bytes)
    (timestamp payloadSize checksum : Nat) : Bytes :=
  [version, typeByte, compByte, prioByte] ++ fit36 traceId ++
    u32be timestamp ++ u32be payloadSize ++ u32be checksum

/-- `Protocol.pack(payload, msg_type, priority)` from
`protocol/protocol.py`, parameterized by the protocol's compression
algorithm `alg` with its `compress` function (the default instance uses
`CompAlg.none`, whose compress is the identity), the generated UUID trace
id `traceId` (always a 36-byte ASCII string), and `int(time.time())` as
`timestamp`.  The payload is compressed, and the header carries the
compressed size and its CRC-32. -/
def Protocol.pack (alg : CompAlg) (compress : Bytes → Bytes) (traceId : Bytes)
    (timestamp : Nat) (payload : Bytes) (t : MessageType) (r : Priority) : Bytes :=
  let cp := compress payload
  headerPack 1 t.toByte alg.firstByte r.toByte traceId timestamp cp.length (crc32 cp)
    ++ cp

/-- `MessageHeader.unpack(data)`: length guard, then field extraction in
the evaluation order of the Python constructor call (message type, then
priority, then trace-id decoding); the version byte is stored unchecked
and the compression byte falls back to `none` on unknown letters. -/
def MessageHeader.unpack (data : Bytes) : Except UnpackErr MessageHeader :=
  if data.length < HEADER_SIZE then .error .headerTooShort
  else
    match MessageType.ofByte (byteAt data 1) with
    | .none => .error .badMsgType
    | some t =>
      match Priority.ofByte (byteAt data 3) with
      | .none => .error .badPriority
      | some r =>
        let trace := (data.drop 4).take 36
        if utf8Valid trace then
          .ok { version := byteAt data 0
                msgType := t
                compression := compOfByte (byteAt data 2)
                priority := r
                traceId := stripNul trace
                timestamp := readU32 data 40
                payloadSize := readU32 data 44
                checksum := readU32 data 48 }
        else .error .badTraceUtf8

/-- `Protocol.unpack(data)` from `protocol/protocol.py`, parameterized by
the decompression functions `decomp` (per algorithm; `none` models a
`CompressionError`): parse the header, check that the remaining bytes
match the declared payload size, verify the CRC-32 checksum, then
decompress with the algorithm named in the header. -/
def Protocol.unpack (decomp : CompAlg → Bytes → Option Bytes) (data : Bytes) :
    Except UnpackErr Message :=
  match MessageHeader.unpack data with
  | .error e => .error e
  | .ok h =>
    let payloadData := data.drop HEADER_SIZE
    if payloadData.length ≠ h.payloadSize then .error .sizeMismatch
    else if crc32 payloadData ≠ h.checksum then .error .checksumFailed
    else
      match decomp h.compression payloadData with
      | some p => .ok { header := h, payload := p }
      | .none => .error .decompressFailed

/-! ## Pool connections: pool/connection.py -/

/-- `ConnectionState` enum from `pool/connection.py`. -/
inductive ConnState where
  | idle
  | busy
  | closed
  | error
deriving DecidableEq, Repr

/-- `ConnectionStats` dataclass from `pool/connection.py`. -/
structure ConnStats where
  createdAt : Rat := 0
  lastUsedAt : Rat := 0
  totalRequests : Nat := 0
  totalErrors : Nat := 0
  totalBytesSent : Nat := 0
  totalBytesReceived : Nat := 0
  avgResponseTime : Rat := 0
  totalResponseTime : Rat := 0
deriving DecidableEq, Repr

/-- A pool `Connection`: `id` stands for the Python object identity (used
as the weighted balancer's dictionary key), `hasSocket` for
`self.socket is not None`, and `lastError` for `self._last_error`. -/
structure Connection where
  id : Nat
  hasSocket : Bool := true
  state : ConnState := .idle
  stats : ConnStats := {}
  currentRequestStart : Rat := 0
  lastError : Option Nat := Option.none
deriving DecidableEq, Repr

/-- A placeholder connection, used only as the default of list lookups
whose index is proved in range. -/
def defaultConn : Connection := { id := 0 }

/-- A sample IDLE connection with average response time 0, last used at
time 100 (concrete balancer evaluations). -/
def connFast : Connection := { id := 0, stats := { lastUsedAt := 100 } }

/-- A sample IDLE connection with average response time 1000, last used
at time 100 (concrete balancer evaluations). -/
def connSlow : Connection :=
  { id := 1, stats := { lastUsedAt := 100, avgResponseTime := 1000 } }

/-- `Connection.is_connected`: a socket exists and the state is neither
CLOSED nor ERROR. -/
def Connection.isConnected (c : Connection) : Bool :=
  c.hasSocket && !(c.state == .closed || c.state == .error)

/-- The events a socket `recv` call can produce: data (possibly empty,
which Python treats as peer close) or an exception. -/
inductive RecvEvent where
  | data (bs : Bytes)
  | exc (errId : Nat)
deriving DecidableEq, Repr

/-- `Connection.receive` from `pool/connection.py`, with the socket
outcome passed as `ev` and `time.time()` as `now`.  On a disconnected
connection it returns early; otherwise the try/except body runs and the
`finally` block updates response-time statistics (when a request start
was recorded) and sets the state to IDLE. -/
def Connection.receive (c : Connection) (now : Rat) (ev : RecvEvent) :
    (Option Bytes × Bool) × Connection :=
  if ¬ c.isConnected then ((Option.none, false), c)
  else
    let (res, c1) :=
      match ev with
      | .data bs =>
        if bs ≠ [] then
          ((some bs, true),
           { c with stats.totalBytesReceived := c.stats.totalBytesReceived + bs.length })
        else ((Option.none, false), c)
      | .exc m =>
        ((Option.none, false),
         { c with lastError := some m, state := .error,
                  stats.totalErrors := c.stats.totalErrors + 1 })
    let c2 :=
      if c1.currentRequestStart > 0 then
        let trt := c1.stats.totalResponseTime + (now - c1.currentRequestStart)
        let tr := c1.stats.totalRequests + 1
        { c1 with stats.totalResponseTime := trt,
                  stats.totalRequests := tr,
                  stats.avgResponseTime := trt / (tr : Rat) }
      else c1
    (res, { c2 with state := .idle })

/-! ## Load balancers: pool/balancer.py -/

/-- `LoadBalancer.filter_available`: connections that are IDLE and
connected. -/
def filterAvailable (conns : List Connection) : List Connection :=
  conns.filter (fun c => c.state == .idle && c.isConnected)

/-- Python `min(items, key=f)`: the first element attaining the minimum
(`none` on an empty list). -/
def argminFirst (score : Connection → Rat) : List Connection → Option Connection
  | [] => Option.none
  | c :: rest =>
    some (rest.foldl (fun best x => if score x < score best then x else best) c)

/-- `RandomBalancer.select`, with `random.choice` fed by `entropy`:
an arbitrary member of the available list (`none` when it is empty). -/
def RandomBalancer.select (entropy : Nat) (conns : List Connection) :
    Option Connection :=
  let av := filterAvailable conns
  av[entropy % av.length]?

/-- `RoundRobinBalancer.select`: advance `_current_index` by one modulo
the available list's length, then return the element at the new index
(and the new index, modelling the mutated field). -/
def RoundRobinBalancer.select (idx : Nat) (conns : List Connection) :
    Option Connection × Nat :=
  let av := filterAvailable conns
  if av.length = 0 then (Option.none, idx)
  else
    let i := (idx + 1) % av.length
    (av[i]?, i)

/-- `LeastConnectionsBalancer.select`: minimum `total_requests`. -/
def LeastConnectionsBalancer.select (conns : List Connection) : Option Connection :=
  argminFirst (fun c => (c.stats.totalRequests : Rat)) (filterAvailable conns)

/-- `ResponseTimeBalancer.select`: minimum `avg_response_time`. -/
def ResponseTimeBalancer.select (conns : List Connection) : Option Connection :=
  argminFirst (fun c => c.stats.avgResponseTime) (filterAvailable conns)

/-- Lookup in the weighted balancer's `_last_response_times` dictionary
(`.get(conn, 0)`), keyed by connection identity. -/
def assocGetD (st : List (Nat × Rat)) (k : Nat) : Rat :=
  (((st.find? (fun e => e.1 == k)).map Prod.snd)).getD 0

/-- Store into the weighted balancer's `_last_response_times` dictionary,
preserving insertion order as Python dicts do. -/
def assocSet (st : List (Nat × Rat)) (k : Nat) (v : Rat) : List (Nat × Rat) :=
  if st.any (fun e => e.1 == k) then
    st.map (fun e => if e.1 == k then (k, v) else e)
  else st ++ [(k, v)]

/-- The score computed by `WeightedResponseTimeBalancer.select` for one
connection: `recent_weight` (0.7) times `avg_response_time` plus 0.3
times the dictionary entry for the connection (the wall-clock time at
which this balancer last selected it, 0 if never), all multiplied by
`1 + (now - last_used_at) * 0.1`. -/
def weightedScore (st : List (Nat × Rat)) (now : Rat) (c : Connection) : Rat :=
  (7 / 10 * c.stats.avgResponseTime + 3 / 10 * assocGetD st c.id) *
    (1 + (now - c.stats.lastUsedAt) * (1 / 10))

/-- `WeightedResponseTimeBalancer.select`: first connection with minimal
weighted score; the selected connection's dictionary entry is set to the
current time (the mutated `_last_response_times` is returned). -/
def WeightedResponseTimeBalancer.select (st : List (Nat × Rat)) (now : Rat)
    (conns : List Connection) : Option Connection × List (Nat × Rat) :=
  match argminFirst (weightedScore st now) (filterAvailable conns) with
  | some c => (some c, assocSet st c.id now)
  | Option.none => (Option.none, st)

/-- A balancer object together with its mutable state: the round-robin
index or the weighted balancer's last-selection dictionary. -/
inductive Balancer where
  | random
  | roundRobin (idx : Nat)
  | leastConnections
  | responseTime
  | weightedResponseTime (st : List (Nat × Rat))
deriving DecidableEq, Repr

/-- Dispatch `select` on the balancer class, threading its state;
`now` feeds `time.time()` and `entropy` feeds `random.choice`. -/
def Balancer.select (b : Balancer) (conns : List Connection) (now : Rat)
    (entropy : Nat) : Option Connection × Balancer :=
  match b with
  | .random => (RandomBalancer.select entropy conns, .random)
  | .roundRobin idx =>
    let (c, i) := RoundRobinBalancer.select idx conns
    (c, .roundRobin i)
  | .leastConnections => (LeastConnectionsBalancer.select conns, b)
  | .responseTime => (ResponseTimeBalancer.select conns, b)
  | .weightedResponseTime st =>
    let (c, st2) := WeightedResponseTimeBalancer.select st now conns
    (c, .weightedResponseTime st2)

/-- Repeated round-robin selection: `n` consecutive `select` calls on an
unchanged connection list, collecting the returned connections and
threading the balancer's index. -/
def rrRun (conns : List Connection) : Nat → Nat → List Connection
  | 0, _ => []
  | n + 1, idx =>
    match RoundRobinBalancer.select idx conns with
    | (some c, i) => c :: rrRun conns n i
    | (Option.none, _) => []

/-- `create_balancer(strategy)` from `pool/balancer.py`: the factory
dictionary lookup with `RandomBalancer()` as the default for unknown
strategy strings; fresh balancers start with index 0 and an empty
dictionary. -/
def create_balancer (strategy : String) : Balancer :=
  if strategy = "random" then .random
  else if strategy = "round_robin" then .roundRobin 0
  else if strategy = "least_connections" then .leastConnections
  else if strategy = "response_time" then .responseTime
  else if strategy = "weighted_response_time" then .weightedResponseTime []
  else .random

/-! ## Connection pool: pool/pool.py (the first `ConnectionPool` class) -/

/-- The scaling fields of `PoolConfig` in `config/config.py` that
`_auto_scale` reads from `self.config`. -/
structure ScaleConfig where
  scaleUpThreshold : Rat
  scaleStep : Nat
  scaleDownIdleThreshold : Nat
deriving DecidableEq, Repr

/-- The state of the first `ConnectionPool` class in `pool/pool.py`:
the attributes its `__init__` assigns.  `config` is `none` because
`__init__` never assigns a `config` attribute (reading it raises
`AttributeError`). -/
structure PoolState where
  connections : List Connection
  minSize : Nat
  maxSize : Nat
  balancer : Balancer
  config : Option ScaleConfig
deriving DecidableEq, Repr

/-- `ConnectionPool.__init__`: record the sizes, create the balancer from
the strategy string, and initialize the pool; `initialConns` stands for
the connections `_initialize_pool` successfully created.  No `config`
attribute is ever assigned. -/
def mkConnectionPool (minSize maxSize : Nat) (strategy : String)
    (initialConns : List Connection) : PoolState :=
  { connections := initialConns
    minSize := minSize
    maxSize := maxSize
    balancer := create_balancer strategy
    config := Option.none }

/-- The metrics recorded on the `get_connection` paths. -/
inductive PoolEvent where
  | balancerDecision
  | connectionFailed
  | noAvailableConnection
deriving DecidableEq, Repr

/-- `ConnectionPool.get_connection`: ask the balancer for a connection and
return it if one was selected; otherwise, if below `max_size`, attempt to
create a new connection (`connectResult` is the outcome of
`_create_connection`, which appends on success); otherwise record
`no_available_connection` and return `None`. -/
def get_connection (p : PoolState) (now : Rat) (entropy : Nat)
    (connectResult : Option Connection) :
    Option Connection × PoolState × List PoolEvent :=
  match p.balancer.select p.connections now entropy with
  | (some c, b2) => (some c, { p with balancer := b2 }, [.balancerDecision])
  | (Option.none, b2) =>
    if p.connections.length < p.maxSize then
      match connectResult with
      | some c =>
        (some c, { p with balancer := b2, connections := p.connections ++ [c] }, [])
      | Option.none =>
        (Option.none, { p with balancer := b2 },
         [.connectionFailed, .noAvailableConnection])
    else (Option.none, { p with balancer := b2 }, [.noAvailableConnection])

/-- `ConnectionPool.return_connection`: remove the connection on ERROR
state, otherwise set it back to IDLE. -/
def return_connection (p : PoolState) (c : Connection) : PoolState :=
  if c.state == .error then
    { p with connections := p.connections.filter (fun x => ¬ x == c) }
  else
    { p with connections :=
        p.connections.map (fun x => if x == c then { x with state := .idle } else x) }

/-- The Python exception kind relevant to `_auto_scale`. -/
inductive PyError where
  | attributeError
deriving DecidableEq, Repr

/-- What an `_auto_scale` run did. -/
inductive ScaleAction where
  | scaledUp (n : Nat)
  | scaledDown (n : Nat)
  | noChange
deriving DecidableEq, Repr

/-- The removal loop of `_auto_scale`: walk the connection list in order
and remove the first `k` connections whose state is IDLE. -/
def removeFirstIdle (k : Nat) : List Connection → List Connection
  | [] => []
  | c :: rest =>
    if k = 0 then c :: rest
    else if c.state == .idle then removeFirstIdle (k - 1) rest
    else c :: removeFirstIdle k rest

/-- `ConnectionPool._auto_scale`: compute totals, then read the three
thresholds from `self.config` — the attribute `__init__` never sets, so
when `config` is `none` the read raises `AttributeError` before any
scaling happens.  With a config present, the scale-up branch appends
`min(scale_step, max_size - total)` creation attempts (`newConns` lists
the outcomes of `_create_connection`) and the scale-down branch removes
`min(idle - 1, total - min_size)` IDLE connections front-first. -/
def autoScale (p : PoolState) (newConns : List (Option Connection)) :
    Except PyError (PoolState × ScaleAction) :=
  let total := p.connections.length
  let active := (p.connections.filter (fun c => c.state == .busy)).length
  let idle := total - active
  let usageFrac : Rat := if total > 0 then (active : Rat) / (total : Rat) else 1
  match p.config with
  | Option.none => .error .attributeError
  | some cfg =>
    if usageFrac > cfg.scaleUpThreshold ∧ total < p.maxSize then
      let n := min cfg.scaleStep (p.maxSize - total)
      .ok ({ p with connections := p.connections ++ (newConns.take n).filterMap id },
           .scaledUp n)
    else if idle > cfg.scaleDownIdleThreshold ∧ total > p.minSize then
      let k := min (idle - 1) (total - p.minSize)
      .ok ({ p with connections := removeFirstIdle k p.connections }, .scaledDown k)
    else .ok (p, .noChange)

/-! ## Caller async bridge: client.py (`AsyncBridge`) -/

/-- One entry of `AsyncBridge.pending_callbacks`: registration time and
retry counter (the callback itself is identified by the entry's key). -/
structure CallbackEntry where
  timestamp : Rat
  retries : Nat
deriving DecidableEq, Repr

/-- `AsyncBridge.register_callback`: append the entry with the current
time and zero retries (Python dict insertion order). -/
def register_callback (table : List (Nat × CallbackEntry)) (msgId : Nat)
    (now : Rat) : List (Nat × CallbackEntry) :=
  table ++ [(msgId, { timestamp := now, retries := 0 })]

/-- `AsyncBridge._cleanup_expired`: walk the keys and delete every entry
older than 3600 seconds.  The second component lists the message ids
whose callbacks the sweep invoked with a timeout — the loop body performs
only the deletion, so nothing is ever appended to it. -/
def cleanup_expired (now : Rat) :
    List (Nat × CallbackEntry) → List (Nat × CallbackEntry) × List Nat
  | [] => ([], [])
  | e :: rest =>
    let r := cleanup_expired now rest
    if now - e.2.timestamp > 3600 then (r.1, r.2) else (e :: r.1, r.2)

/-! ## Health checker: discovery/health.py (`HealthChecker._run_check`) -/

/-- `HealthStatus` enum from `discovery/health.py`. -/
inductive HealthStatus where
  | unknown
  | healthy
  | unhealthy
deriving DecidableEq, Repr

/-- The outcome of one probe attempt (`await asyncio.wait_for(check_func(),
timeout)`): a result dictionary (opaque here), a timeout, or an
exception. -/
inductive Attempt where
  | ok (details : Nat)
  | timeoutErr
  | exc (msg : Nat)
deriving DecidableEq, Repr

/-- The error string recorded by a failed attempt. -/
inductive ErrMsg where
  | checkTimeout
  | exc (msg : Nat)
deriving DecidableEq, Repr

/-- The `HealthResult` published for one check cycle, plus the number of
1-second backoff sleeps the cycle performed; `details = none` stands for
the empty dictionary (`details or` the empty dictionary). -/
structure CycleResult where
  status : HealthStatus
  errorMsg : Option ErrMsg
  details : Option Nat
  sleeps : Nat
deriving DecidableEq, Repr

/-- The retry loop body of `_run_check`: `for _ in range(retries)` with
attempt `i` producing `att i`, recursing on the number `r + 1` of
attempts still to run (so the Python backoff guard on the loop index,
sleep only when more attempts remain, is `r ≠ 0`).  On success the loop
breaks with the error cleared and the details recorded — but the status
variable keeps whatever value it had (it is initialized HEALTHY and set
UNHEALTHY by any failed attempt, never reset).  After a failed attempt
that is not the last, the loop sleeps one second. -/
def runAttempts (att : Nat → Attempt) :
    Nat → Nat → HealthStatus → Option ErrMsg → Nat → CycleResult
  | 0, _, status, errorMsg, sleeps =>
    { status := status, errorMsg := errorMsg, details := Option.none, sleeps := sleeps }
  | r + 1, i, status, _, sleeps =>
    match att i with
    | .ok d =>
      { status := status, errorMsg := Option.none, details := some d, sleeps := sleeps }
    | .timeoutErr =>
      runAttempts att r (i + 1) .unhealthy (some .checkTimeout)
        (if r ≠ 0 then sleeps + 1 else sleeps)
    | .exc m =>
      runAttempts att r (i + 1) .unhealthy (some (.exc m))
        (if r ≠ 0 then sleeps + 1 else sleeps)

/-- One check cycle of `HealthChecker._run_check`: status starts HEALTHY,
error empty, then the retry loop runs and the resulting `HealthResult`
is published. -/
def runCheckCycle (retries : Nat) (att : Nat → Attempt) : CycleResult :=
  runAttempts att retries 0 .healthy Option.none 0

/-! ## Theorems -/

/-! ### Helper lemmas on balancer selection -/

theorem foldlMin_mem (f : Connection → Rat) (l : List Connection) :
    ∀ acc : Connection,
      l.foldl (fun best x => if f x < f best then x else best) acc ∈ acc :: l := by
  induction l with
  | nil => intro acc; simp
  | cons x rest ih =>
    intro acc
    have h := ih (if f x < f acc then x else acc)
    simp only [List.foldl_cons]
    rcases List.mem_cons.mp h with h1 | h2
    · rw [h1]
      by_cases hx : f x < f acc
      · simp [hx]
      · simp [hx]
    · exact List.mem_cons_of_mem _ (List.mem_cons_of_mem _ h2)

theorem foldlMin_le (f : Connection → Rat) (l : List Connection) :
    ∀ acc : Connection,
      f (l.foldl (fun best x => if f x < f best then x else best) acc) ≤ f acc ∧
      ∀ x ∈ l, f (l.foldl (fun best x => if f x < f best then x else best) acc) ≤ f x := by
  induction l with
  | nil => intro acc; simp
  | cons x rest ih =>
    intro acc
    have h := ih (if f x < f acc then x else acc)
    have hacc : f (if f x < f acc then x else acc) ≤ f acc := by
      by_cases hx : f x < f acc
      · simp [hx]; exact le_of_lt hx
      · simp [hx]
    have hx2 : f (if f x < f acc then x else acc) ≤ f x := by
      by_cases hx : f x < f acc
      · simp [hx]
      · simp [hx]; exact not_lt.mp hx
    simp only [List.foldl_cons]
    refine ⟨le_trans h.1 hacc, ?_⟩
    intro y hy
    rcases List.mem_cons.mp hy with h1 | h2
    · rw [h1]; exact le_trans h.1 hx2
    · exact h.2 y h2

theorem argminFirst_mem {f : Connection → Rat} {l : List Connection} {c : Connection}
    (h : argminFirst f l = some c) : c ∈ l := by
  cases l with
  | nil => simp [argminFirst] at h
  | cons a rest =>
    simp only [argminFirst, Option.some.injEq] at h
    rw [← h]
    exact foldlMin_mem f rest a

theorem argminFirst_le {f : Connection → Rat} {l : List Connection} {c : Connection}
    (h : argminFirst f l = some c) : ∀ x ∈ l, f c ≤ f x := by
  cases l with
  | nil => simp [argminFirst] at h
  | cons a rest =>
    simp only [argminFirst, Option.some.injEq] at h
    intro x hx
    rcases List.mem_cons.mp hx with h1 | h2
    · rw [h1, ← h]; exact (foldlMin_le f rest a).1
    · rw [← h]; exact (foldlMin_le f rest a).2 x h2

theorem argminFirst_eq_none {f : Connection → Rat} {l : List Connection} :
    argminFirst f l = Option.none ↔ l = [] := by
  cases l <;> simp [argminFirst]

theorem mem_filterAvailable {c : Connection} {conns : List Connection}
    (h : c ∈ filterAvailable conns) : c.state = .idle ∧ c.isConnected = true := by
  have h2 := List.of_mem_filter h
  simp only [Bool.and_eq_true, beq_iff_eq] at h2
  exact h2

theorem Balancer.select_mem {b : Balancer} {conns : List Connection} {now : Rat}
    {entropy : Nat} {c : Connection} {b2 : Balancer}
    (h : b.select conns now entropy = (some c, b2)) : c ∈ filterAvailable conns := by
  cases b with
  | random =>
    simp only [Balancer.select, RandomBalancer.select, Prod.mk.injEq] at h
    exact List.getElem?_mem h.1
  | roundRobin idx =>
    simp only [Balancer.select, RoundRobinBalancer.select] at h
    by_cases hl : (filterAvailable conns).length = 0
    · simp [hl] at h
    · simp only [hl, if_false, Prod.mk.injEq] at h
      exact List.getElem?_mem h.1
  | leastConnections =>
    simp only [Balancer.select, LeastConnectionsBalancer.select, Prod.mk.injEq] at h
    exact argminFirst_mem h.1
  | responseTime =>
    simp only [Balancer.select, ResponseTimeBalancer.select, Prod.mk.injEq] at h
    exact argminFirst_mem h.1
  | weightedResponseTime st =>
    simp only [Balancer.select, WeightedResponseTimeBalancer.select] at h
    rcases ha : argminFirst (weightedScore st now) (filterAvailable conns) with _ | c2
    · simp [ha] at h
    · simp only [ha, Prod.mk.injEq, Option.some.injEq] at h
      rw [← h.1]
      exact argminFirst_mem ha

/-- C10: the balancer factory is total and defaults silently — the five
known strategy tags map to their balancer classes (with fresh initial
state) and every other string yields a `RandomBalancer` rather than an
error. -/
theorem c10_create_balancer_total :
    create_balancer "random" = .random ∧
    create_balancer "round_robin" = .roundRobin 0 ∧
    create_balancer "least_connections" = .leastConnections ∧
    create_balancer "response_time" = .responseTime ∧
    create_balancer "weighted_response_time" = .weightedResponseTime [] ∧
    ∀ s : String, s ∉ ["random", "round_robin", "least_connections",
      "response_time", "weighted_response_time"] → create_balancer s = .random := by
  refine ⟨rfl, rfl, rfl, rfl, rfl, ?_⟩
  intro s hs
  simp only [List.mem_cons, List.not_mem_nil, or_false, not_or] at hs
  obtain ⟨h1, h2, h3, h4, h5⟩ := hs
  simp [create_balancer, h1, h2, h3, h4, h5]

/-- Witness for C10 at the concrete unknown strategy string "rand": the
factory yields the random balancer. -/
theorem c10_witness : create_balancer "rand" = .random :=
  c10_create_balancer_total.2.2.2.2.2 "rand" (by decide)

/-- C5 (code bug evaluation): with `retries = 2`, a probe that times out
on the first attempt and succeeds on the second makes `_run_check`
publish a result whose status is UNHEALTHY even though an attempt of the
cycle succeeded — with `error = None` and the successful details, because
the status variable is never reset after a failed attempt.  One 1-second
backoff sleep happens between the attempts. -/
theorem c5_retry_success_publishes_unhealthy :
    runCheckCycle 2 (fun i => if i = 0 then .timeoutErr else .ok 7) =
      { status := .unhealthy, errorMsg := Option.none, details := some 7, sleeps := 1 } := by
  rfl

/-- C4 (counterexample): an entry registered at time 0 and swept at time
4000 is expired; the sweep removes it from the table but invokes no
completion callback at all — refuting the claim that every expired
entry's callback is invoked with TIMEOUT. -/
theorem c4_cleanup_invokes_no_callback :
    (cleanup_expired 4000 [(0, { timestamp := 0, retries := 0 })]).1 = [] ∧
    0 ∉ (cleanup_expired 4000 [(0, { timestamp := 0, retries := 0 })]).2 := by
  have h : (3600 : Rat) < 4000 := by norm_num
  simp [cleanup_expired, h]

/-- C4 (amended): a `_cleanup_expired` sweep keeps exactly the entries
whose age is at most 3600 seconds (a fixed expiry, independent of any
per-request deadline) and removes the rest; it invokes no completion
callback, so an expired request is dropped silently instead of being
completed with TIMEOUT. -/
theorem c4_cleanup_amended :
    ∀ (now : Rat) (table : List (Nat × CallbackEntry)),
      (cleanup_expired now table).1 =
        table.filter (fun e => now - e.2.timestamp ≤ 3600) ∧
      (cleanup_expired now table).2 = [] := by
  intro now table
  induction table with
  | nil => exact ⟨rfl, rfl⟩
  | cons e rest ih =>
    by_cases h : now - e.2.timestamp > 3600
    · have hb : decide (now - e.2.timestamp ≤ 3600) = false :=
        decide_eq_false (not_le.mpr h)
      refine ⟨?_, ?_⟩ <;>
        simp only [cleanup_expired, if_pos h, List.filter_cons, hb, ih.1, ih.2,
          Bool.false_eq_true, if_false]
    · have hb : decide (now - e.2.timestamp ≤ 3600) = true :=
        decide_eq_true (not_lt.mp h)
      refine ⟨?_, ?_⟩ <;>
        simp only [cleanup_expired, if_neg h, List.filter_cons, hb, ih.1, ih.2, if_true]

/-- C9: `Connection.receive` on a connected connection always returns
with the connection state IDLE — the ERROR state assigned in the
exception handler is overwritten by the `finally` block, whatever the
socket event was. -/
theorem c9_receive_leaves_idle :
    ∀ (c : Connection) (now : Rat) (ev : RecvEvent),
      c.isConnected = true →
      ((c.receive now ev).2.state = .idle ∧ (c.receive now ev).2.state ≠ .error) := by
  intro c now ev hc
  have hnc : ¬ (¬ c.isConnected = true) := by simp [hc]
  cases ev with
  | data bs =>
    by_cases hb : bs = []
    · constructor <;> simp [Connection.receive, hc, hb]
    · constructor <;> simp [Connection.receive, hc, hb]
  | exc m =>
    constructor <;> simp [Connection.receive, hc]

/-- Witness for C9: a freshly connected IDLE connection, a socket
exception event — receive still returns with state IDLE. -/
theorem c9_witness :
    (({ id := 0 } : Connection).receive 5 (.exc 1)).2.state = .idle ∧
    (({ id := 0 } : Connection).receive 5 (.exc 1)).2.state ≠ .error :=
  c9_receive_leaves_idle { id := 0 } 5 (.exc 1) (by decide)

/-- C6 (code bug evaluation): `_auto_scale` reads the scaling thresholds
from `self.config`, an attribute `__init__` never assigns, so on every
pool built by the constructor the tick raises `AttributeError` (swallowed
by the worker loop) before any connection is created or closed — no
scaling ever happens, against the claim's `min(scale_step, max_size -
total)` creation step. -/
theorem c6_auto_scale_attribute_error :
    (∀ (p : PoolState) (newConns : List (Option Connection)),
        p.config = Option.none → autoScale p newConns = .error .attributeError) ∧
    (∀ (a b : Nat) (s : String) (l : List Connection),
        (mkConnectionPool a b s l).config = Option.none) := by
  constructor
  · intro p newConns h
    simp [autoScale, h]
  · intro a b s l
    rfl

/-- Witness for C6: a pool of two BUSY connections with `max_size = 20`
(the claim would have the tick create two connections); the tick errors
out instead. -/
theorem c6_witness :
    autoScale
      (mkConnectionPool 2 20 "weighted_response_time"
        [{ id := 0, state := .busy }, { id := 1, state := .busy }])
      [some { id := 2 }, some { id := 3 }] = .error .attributeError :=
  c6_auto_scale_attribute_error.1 _ _
    (c6_auto_scale_attribute_error.2 2 20 "weighted_response_time" _)

/-- C3 (counterexample): a pool holding one IDLE connected connection
(the default weighted balancer, as built by the constructor) returns that
connection from `get_connection` still in state IDLE — `get_connection`
never transitions the returned connection to BUSY (the pool's own test
asserts IDLE here; BUSY is entered only by `Connection.send`), refuting
the claimed acquire postcondition. -/
theorem c3_acquired_connection_not_busy :
    (get_connection
      { connections := [{ id := 0 }], minSize := 1, maxSize := 20,
        balancer := .weightedResponseTime [], config := Option.none }
      0 0 Option.none).1 = some { id := 0 } ∧
    ({ id := 0 } : Connection).state ≠ .busy ∧
    (get_connection
      { connections := [{ id := 0 }], minSize := 1, maxSize := 20,
        balancer := .weightedResponseTime [], config := Option.none }
      0 0 Option.none).2.1.connections = [{ id := 0 }] := by
  refine ⟨?_, by decide, ?_⟩ <;> rfl

/-- C3 (amended): every connection returned by `get_connection` is live
and in state IDLE (not BUSY) — whether selected by the balancer, which
filters for IDLE connected connections, or freshly created, in which case
`connect()` has set it IDLE; and `get_connection` returns no connection,
recording `no_available_connection`, exactly when the balancer selects
none and either the pool is at `max_size` or the creation attempt
failed. -/
theorem c3_get_connection_amended :
    ∀ (p : PoolState) (now : Rat) (entropy : Nat) (connectResult : Option Connection),
      (∀ c, connectResult = some c → c.state = .idle ∧ c.isConnected = true) →
      (∀ c, (get_connection p now entropy connectResult).1 = some c →
          c.state = .idle ∧ c.isConnected = true) ∧
      ((get_connection p now entropy connectResult).1 = Option.none ↔
        ((p.balancer.select p.connections now entropy).1 = Option.none ∧
         (p.maxSize ≤ p.connections.length ∨ connectResult = Option.none))) ∧
      ((get_connection p now entropy connectResult).1 = Option.none ↔
        .noAvailableConnection ∈ (get_connection p now entropy connectResult).2.2) := by
  intro p now entropy connectResult hcr
  rcases hsel : p.balancer.select p.connections now entropy with ⟨co, b2⟩
  cases co with
  | some c =>
    have hg : get_connection p now entropy connectResult =
        (some c, { p with balancer := b2 }, [.balancerDecision]) := by
      simp [get_connection, hsel]
    refine ⟨?_, ?_, ?_⟩ <;> rw [hg]
    · intro x hx
      simp only [Option.some.injEq] at hx
      rw [← hx]
      exact mem_filterAvailable (Balancer.select_mem hsel)
    · simp [hsel]
    · simp
  | none =>
    by_cases hlen : p.connections.length < p.maxSize
    · cases connectResult with
      | some c =>
        have hg : get_connection p now entropy (some c) =
            (some c, { p with balancer := b2, connections := p.connections ++ [c] },
             []) := by
          simp [get_connection, hsel, hlen]
        obtain ⟨h1, h2⟩ := hcr c rfl
        refine ⟨?_, ?_, ?_⟩ <;> rw [hg]
        · intro x hx
          simp only [Option.some.injEq] at hx
          rw [← hx]
          exact ⟨h1, h2⟩
        · simp [hsel]
          exact hlen
        · simp
      | none =>
        have hg : get_connection p now entropy Option.none =
            (Option.none, { p with balancer := b2 },
             [.connectionFailed, .noAvailableConnection]) := by
          simp [get_connection, hsel, hlen]
        refine ⟨?_, ?_, ?_⟩ <;> rw [hg]
        · intro x hx; cases hx
        · simp [hsel]
        · simp
    · have hg : get_connection p now entropy connectResult =
          (Option.none, { p with balancer := b2 }, [.noAvailableConnection]) := by
        simp [get_connection, hsel, hlen]
      refine ⟨?_, ?_, ?_⟩ <;> rw [hg]
      · intro x hx; cases hx
      · simp [hsel, Nat.le_of_not_lt hlen]
      · simp

/-- Witness for C3: empty pool at `max_size = 0` with a failed creation
attempt — `get_connection` returns none and records
`no_available_connection`. -/
theorem c3_witness :
    (∀ c, (get_connection
        { connections := [], minSize := 0, maxSize := 0,
          balancer := .roundRobin 0, config := Option.none } 0 0 Option.none).1 = some c →
        c.state = .idle ∧ c.isConnected = true) ∧
    ((get_connection
        { connections := [], minSize := 0, maxSize := 0,
          balancer := .roundRobin 0, config := Option.none } 0 0 Option.none).1 =
          Option.none ↔
      ((Balancer.roundRobin 0).select [] 0 0).1 = Option.none ∧
        (0 ≤ ([] : List Connection).length ∨ (Option.none : Option Connection) = Option.none)) ∧
    ((get_connection
        { connections := [], minSize := 0, maxSize := 0,
          balancer := .roundRobin 0, config := Option.none } 0 0 Option.none).1 =
          Option.none ↔
      .noAvailableConnection ∈ (get_connection
        { connections := [], minSize := 0, maxSize := 0,
          balancer := .roundRobin 0, config := Option.none } 0 0 Option.none).2.2) :=
  c3_get_connection_amended
    { connections := [], minSize := 0, maxSize := 0,
      balancer := .roundRobin 0, config := Option.none }
    0 0 Option.none (fun _ h => nomatch h)

/-- C7 (counterexample): two IDLE connections, both last used at the
current time 100 — connection 0 with average response time 0, connection
1 with 1000.  The weighted balancer selects connection 0 and records the
current time for it; an immediately following selection on the unchanged
list still returns connection 0, refuting the claim that the recorded
entry prevents the winner from immediately winning again (the recorded
value is a wall-clock timestamp, not a response time). -/
theorem c7_selected_connection_immediately_rewins :
    (WeightedResponseTimeBalancer.select [] 100 [connFast, connSlow]).1 =
      some connFast ∧
    (WeightedResponseTimeBalancer.select [] 100 [connFast, connSlow]).2 =
      [(0, 100)] ∧
    (WeightedResponseTimeBalancer.select [(0, 100)] 100 [connFast, connSlow]).1 =
      some connFast := by
  have hfil : filterAvailable [connFast, connSlow] = [connFast, connSlow] := rfl
  have hg1 : assocGetD [(0, 100)] 1 = 0 := rfl
  have hg0 : assocGetD [(0, 100)] 0 = 100 := rfl
  have hn1 : ¬ (weightedScore [] 100 connSlow < weightedScore [] 100 connFast) := by
    norm_num [weightedScore, assocGetD, connFast, connSlow]
  have hn2 : ¬ (weightedScore [(0, 100)] 100 connSlow <
      weightedScore [(0, 100)] 100 connFast) := by
    norm_num [weightedScore, hg1, hg0, connFast, connSlow]
  have hsel1 : WeightedResponseTimeBalancer.select [] 100 [connFast, connSlow] =
      (some connFast, [(0, 100)]) := by
    simp only [WeightedResponseTimeBalancer.select, hfil, argminFirst,
      List.foldl_cons, List.foldl_nil, if_neg hn1]
    rfl
  have hsel2 : WeightedResponseTimeBalancer.select [(0, 100)] 100
      [connFast, connSlow] = (some connFast, assocSet [(0, 100)] connFast.id 100) := by
    simp only [WeightedResponseTimeBalancer.select, hfil, argminFirst,
      List.foldl_cons, List.foldl_nil, if_neg hn2]
  exact ⟨by rw [hsel1], by rw [hsel1], by rw [hsel2]⟩

/-- C7 (amended): on a non-empty list of available (IDLE, connected)
connections, `WeightedResponseTimeBalancer.select` returns a connection
whose score — 0.7 times `avg_response_time` plus 0.3 times the balancer's
recorded timestamp of that connection's previous selection (0 if never
selected), scaled by `1 + idle_seconds * 0.1` — is minimal, and records
the current time as the selected connection's entry; on an empty list it
returns none and leaves the record unchanged. -/
theorem c7_weighted_select_amended :
    ∀ (st : List (Nat × Rat)) (now : Rat) (conns : List Connection),
      (filterAvailable conns = [] →
        WeightedResponseTimeBalancer.select st now conns = (Option.none, st)) ∧
      (filterAvailable conns ≠ [] →
        ∃ c, WeightedResponseTimeBalancer.select st now conns =
            (some c, assocSet st c.id now) ∧
          c ∈ filterAvailable conns ∧
          ∀ x ∈ filterAvailable conns,
            weightedScore st now c ≤ weightedScore st now x) := by
  intro st now conns
  constructor
  · intro h
    simp [WeightedResponseTimeBalancer.select, h, argminFirst]
  · intro h
    rcases ha : argminFirst (weightedScore st now) (filterAvailable conns) with _ | c
    · exact absurd (argminFirst_eq_none.mp ha) h
    · exact ⟨c, by simp [WeightedResponseTimeBalancer.select, ha],
        argminFirst_mem ha, argminFirst_le ha⟩

/-- Witness for C7: a single available connection — select returns it with
its entry recorded. -/
theorem c7_witness :
    ∃ c, WeightedResponseTimeBalancer.select [] 0 [{ id := 5 }] =
        (some c, assocSet [] c.id 0) ∧
      c ∈ filterAvailable [{ id := 5 }] ∧
      ∀ x ∈ filterAvailable [{ id := 5 }],
        weightedScore [] 0 c ≤ weightedScore [] 0 x :=
  (c7_weighted_select_amended [] 0 [{ id := 5 }]).2 (by decide)

/-! ### Helper lemmas for round-robin iteration -/

theorem getD_range_map (l : List Connection) :
    (List.range l.length).map (fun i => l.getD i defaultConn) = l := by
  induction l with
  | nil => rfl
  | cons a t ih =>
    show (List.range (t.length + 1)).map _ = _
    rw [List.range_succ_eq_map, List.map_cons, List.map_map]
    have h2 : (List.range t.length).map
          ((fun i => (a :: t).getD i defaultConn) ∘ Nat.succ)
        = (List.range t.length).map (fun i => t.getD i defaultConn) :=
      List.map_congr_left (fun i _ => rfl)
    rw [h2, ih]
    rfl

theorem rrRun_eq (conns : List Connection)
    (hne : filterAvailable conns ≠ []) :
    ∀ (n idx : Nat),
      rrRun conns n idx = (List.range n).map
        (fun k => (filterAvailable conns).getD
          ((idx + 1 + k) % (filterAvailable conns).length) defaultConn) := by
  intro n
  induction n with
  | zero => intro idx; rfl
  | succ n ih =>
    intro idx
    have hl : (filterAvailable conns).length ≠ 0 := by
      simpa [List.length_eq_zero] using hne
    have hi : (idx + 1) % (filterAvailable conns).length <
        (filterAvailable conns).length :=
      Nat.mod_lt _ (Nat.pos_of_ne_zero hl)
    have hsel : RoundRobinBalancer.select idx conns =
        (some ((filterAvailable conns).getD
            ((idx + 1) % (filterAvailable conns).length) defaultConn),
         (idx + 1) % (filterAvailable conns).length) := by
      simp only [RoundRobinBalancer.select, hl, if_false]
      rw [List.getElem?_eq_getElem hi, List.getD_eq_getElem _ defaultConn hi]
    show (match RoundRobinBalancer.select idx conns with
      | (some c, i) => c :: rrRun conns n i
      | (Option.none, _) => []) = _
    rw [hsel]
    show ((filterAvailable conns).getD
        ((idx + 1) % (filterAvailable conns).length) defaultConn) ::
        rrRun conns n ((idx + 1) % (filterAvailable conns).length) =
      (List.range (n + 1)).map (fun k => (filterAvailable conns).getD
        ((idx + 1 + k) % (filterAvailable conns).length) defaultConn)
    rw [ih, List.range_succ_eq_map, List.map_cons, List.map_map]
    have harith : ∀ k, ((idx + 1) % (filterAvailable conns).length + 1 + k) %
        (filterAvailable conns).length =
        (idx + 1 + Nat.succ k) % (filterAvailable conns).length := by
      intro k
      have h1 : (idx + 1) % (filterAvailable conns).length + 1 + k =
          (idx + 1) % (filterAvailable conns).length + (1 + k) := by omega
      rw [h1, Nat.mod_add_mod]
      congr 1
      omega
    simp only [Function.comp, Nat.add_zero, harith]
    congr 1

theorem shifted_mod_range_perm (a L : Nat) (hL : L ≠ 0) :
    ((List.range L).map (fun k => (a + k) % L)).Perm (List.range L) := by
  have hpos : 0 < L := Nat.pos_of_ne_zero hL
  have hnodup : ((List.range L).map (fun k => (a + k) % L)).Nodup := by
    refine List.Nodup.map_on ?_ (List.nodup_range _)
    intro x hx y hy hxy
    have hx2 : x < L := List.mem_range.mp hx
    have hy2 : y < L := List.mem_range.mp hy
    have hmod : x ≡ y [MOD L] := Nat.ModEq.add_left_cancel' a hxy
    calc x = x % L := (Nat.mod_eq_of_lt hx2).symm
      _ = y % L := hmod
      _ = y := Nat.mod_eq_of_lt hy2
  refine List.perm_of_nodup_nodup_toFinset_eq hnodup (List.nodup_range _) ?_
  apply Finset.eq_of_subset_of_card_le
  · intro x hx
    simp only [List.mem_toFinset, List.mem_map, List.mem_range] at hx ⊢
    obtain ⟨k, _, hk2⟩ := hx
    rw [← hk2]
    exact Nat.mod_lt _ hpos
  · rw [List.toFinset_card_of_nodup hnodup, List.toFinset_card_of_nodup (List.nodup_range _)]
    simp

/-- C8: round-robin selection advances the stored index by one modulo the
available list's length and returns the element at the advanced index;
over `n` consecutive selections on an unchanged list whose available
(IDLE, connected) sublist has `n` elements, the returned connections are
a permutation of that sublist — every connection is returned exactly
once. -/
theorem c8_round_robin_cycle :
    ∀ (idx : Nat) (conns : List Connection),
      filterAvailable conns ≠ [] →
      (RoundRobinBalancer.select idx conns =
        ((filterAvailable conns)[(idx + 1) % (filterAvailable conns).length]?,
         (idx + 1) % (filterAvailable conns).length)) ∧
      (rrRun conns (filterAvailable conns).length idx).Perm
        (filterAvailable conns) := by
  intro idx conns hne
  have hl : (filterAvailable conns).length ≠ 0 := by
    simpa [List.length_eq_zero] using hne
  constructor
  · simp only [RoundRobinBalancer.select, hl, if_false]
  · rw [rrRun_eq conns hne (filterAvailable conns).length idx]
    have hcomp : (List.range (filterAvailable conns).length).map
        (fun k => (filterAvailable conns).getD
          ((idx + 1 + k) % (filterAvailable conns).length) defaultConn) =
        ((List.range (filterAvailable conns).length).map
          (fun k => (idx + 1 + k) % (filterAvailable conns).length)).map
          (fun j => (filterAvailable conns).getD j defaultConn) := by
      rw [List.map_map]
      rfl
    rw [hcomp]
    have hperm := (shifted_mod_range_perm (idx + 1) (filterAvailable conns).length
      hl).map (fun j => (filterAvailable conns).getD j defaultConn)
    exact hperm.trans (by rw [getD_range_map])

/-- Witness for C8: two IDLE connections, starting index 0 — the select
equation holds and two consecutive selections return both connections. -/
theorem c8_witness :
    (RoundRobinBalancer.select 0 [connFast, connSlow] =
      ((filterAvailable [connFast, connSlow])[(0 + 1) %
          (filterAvailable [connFast, connSlow]).length]?,
       (0 + 1) % (filterAvailable [connFast, connSlow]).length)) ∧
    (rrRun [connFast, connSlow] (filterAvailable [connFast, connSlow]).length 0).Perm
      (filterAvailable [connFast, connSlow]) :=
  c8_round_robin_cycle 0 [connFast, connSlow] (by decide)

/-! ### Helper lemmas for the framing-A codec -/

theorem byteAt_append_right (l1 l2 : Bytes) (i : Nat) (h : l1.length ≤ i) :
    byteAt (l1 ++ l2) i = byteAt l2 (i - l1.length) :=
  List.getD_append_right l1 l2 0 i h

theorem length_u32be (n : Nat) : (u32be n).length = 4 := rfl

theorem fit36_eq {l : Bytes} (h : l.length = 36) : fit36 l = l := by
  simp [fit36, h, List.take_of_length_le (le_of_eq h)]

theorem readU32_at (pre post : Bytes) (v : Nat) (hv : v < 2 ^ 32) :
    readU32 (pre ++ (u32be v ++ post)) pre.length = v := by
  have h0 : byteAt (pre ++ (u32be v ++ post)) pre.length =
      byteAt (u32be v ++ post) 0 := by
    rw [byteAt_append_right _ _ _ (le_refl _), Nat.sub_self]
  have hj : ∀ j, byteAt (pre ++ (u32be v ++ post)) (pre.length + j) =
      byteAt (u32be v ++ post) j := by
    intro j
    rw [byteAt_append_right _ _ _ (Nat.le_add_right _ _), Nat.add_sub_cancel_left]
  have e0 : byteAt (u32be v ++ post) 0 = v / 2 ^ 24 % 256 := rfl
  have e1 : byteAt (u32be v ++ post) 1 = v / 2 ^ 16 % 256 := rfl
  have e2 : byteAt (u32be v ++ post) 2 = v / 2 ^ 8 % 256 := rfl
  have e3 : byteAt (u32be v ++ post) 3 = v % 256 := rfl
  show byteAt _ pre.length * 2 ^ 24 + byteAt _ (pre.length + 1) * 2 ^ 16 +
      byteAt _ (pre.length + 2) * 256 + byteAt _ (pre.length + 3) = v
  rw [h0, hj 1, hj 2, hj 3, e0, e1, e2, e3]
  omega

theorem utf8ValidRun_ascii :
    ∀ (fuel : Nat) (l : Bytes), l.length ≤ fuel → (∀ b ∈ l, b < 128) →
      utf8ValidRun fuel l = true := by
  intro fuel
  induction fuel with
  | zero =>
    intro l hlen _
    have : l = [] := List.length_eq_zero.mp (Nat.le_zero.mp hlen)
    rw [this]
    rfl
  | succ fuel ih =>
    intro l hlen h
    cases l with
    | nil => rfl
    | cons b rest =>
      have hb : b < 128 := h b (List.mem_cons_self b rest)
      have hr : ∀ x ∈ rest, x < 128 := fun x hx => h x (List.mem_cons_of_mem b hx)
      have hc : utf8CharLen (b :: rest) = some 1 := by
        rw [utf8CharLen.eq_def]
        simp only [if_pos hb]
      rw [utf8ValidRun, hc]
      exact ih rest (by simpa using hlen) hr

theorem utf8Valid_ascii {l : Bytes} (h : ∀ b ∈ l, b < 128) : utf8Valid l = true :=
  utf8ValidRun_ascii l.length l (le_refl _) h

theorem MessageType.msgTypeOfByte_toByte (t : MessageType) :
    MessageType.ofByte t.toByte = some t := by cases t <;> rfl

theorem Priority.priorityOfByte_toByte (r : Priority) :
    Priority.ofByte r.toByte = some r := by cases r <;> rfl

theorem compOfByte_firstByte (a : CompAlg) : compOfByte a.firstByte = a := by
  cases a <;> rfl

theorem crcBit_lt (c : Nat) (h : c < 2 ^ 32) : crcBit c < 2 ^ 32 := by
  unfold crcBit
  split
  · exact Nat.xor_lt_two_pow (by omega) (by norm_num)
  · omega

theorem crcByte_lt (c b : Nat) (h : c < 2 ^ 32) : crcByte c b < 2 ^ 32 := by
  unfold crcByte
  have h0 : c ^^^ b % 256 < 2 ^ 32 :=
    Nat.xor_lt_two_pow h (lt_trans (Nat.mod_lt _ (by norm_num)) (by norm_num))
  exact crcBit_lt _ (crcBit_lt _ (crcBit_lt _ (crcBit_lt _ (crcBit_lt _
    (crcBit_lt _ (crcBit_lt _ (crcBit_lt _ h0)))))))

theorem crc32_lt (data : Bytes) : crc32 data < 2 ^ 32 := by
  unfold crc32
  have h : ∀ (l : Bytes) (acc : Nat), acc < 2 ^ 32 → l.foldl crcByte acc < 2 ^ 32 := by
    intro l
    induction l with
    | nil => intro acc h; simpa using h
    | cons x rest ih =>
      intro acc hacc
      simpa using ih (crcByte acc x) (crcByte_lt acc x hacc)
  exact Nat.xor_lt_two_pow (h data 0xFFFFFFFF (by norm_num)) (by norm_num)

theorem MessageHeader.unpack_ok_inv {b : Bytes} {hd : MessageHeader}
    (h : MessageHeader.unpack b = .ok hd) :
    52 ≤ b.length ∧ MessageType.ofByte (byteAt b 1) = some hd.msgType ∧
    Priority.ofByte (byteAt b 3) = some hd.priority ∧
    hd.payloadSize = readU32 b 44 ∧ hd.checksum = readU32 b 48 := by
  simp only [MessageHeader.unpack, HEADER_SIZE] at h
  by_cases hlen : b.length < 52
  · simp [hlen] at h
  · simp only [hlen, if_false] at h
    rcases hmt : MessageType.ofByte (byteAt b 1) with _ | t0 <;> rw [hmt] at h
    · simp at h
    · rcases hpr : Priority.ofByte (byteAt b 3) with _ | r0 <;> rw [hpr] at h
      · simp at h
      · by_cases hu : utf8Valid ((b.drop 4).take 36) = true
        · simp only [hu, if_true] at h
          have h2 := (Except.ok.injEq _ _).mp h.symm
          rw [h2]
          exact ⟨Nat.le_of_not_lt hlen, rfl, rfl, rfl, rfl⟩
        · simp [hu] at h

/-- C1 (counterexample): the byte string with version byte 2, message
type REQUEST, compression letter 110, priority 0, an all-NUL trace id,
zero timestamp, zero payload size and checksum 0 (the CRC-32 of the
empty payload) is not of the form `Protocol.pack`(...) — `pack` always
emits version byte 1 — yet `Protocol.unpack` accepts it, because the
decoder validates neither the version byte nor the trace-id contents.
This refutes the claim that every byte string outside `pack`'s image
fails to unpack. -/
theorem c1_unpack_accepts_nonpack :
    (∀ (alg : CompAlg) (compress : Bytes → Bytes) (traceId : Bytes) (ts : Nat)
        (payload : Bytes) (t : MessageType) (r : Priority),
        Protocol.pack alg compress traceId ts payload t r ≠
          [2, 1, 110, 0] ++ List.replicate 48 0) ∧
    Protocol.unpack (fun _ bs => some bs) ([2, 1, 110, 0] ++ List.replicate 48 0) =
      .ok { header := { version := 2, msgType := .request, compression := .none,
                        priority := .low, traceId := [], timestamp := 0,
                        payloadSize := 0, checksum := 0 },
            payload := [] } := by
  constructor
  · intro alg compress traceId ts payload t r h
    have h0 : byteAt (Protocol.pack alg compress traceId ts payload t r) 0 = 1 := rfl
    rw [h] at h0
    have h2 : (2 : Nat) = 1 := h0
    omega
  · rfl

/-- C1 (amended): the round trip holds — for the default uncompressed
protocol instance (and any compression whose decompressor inverts it),
`unpack(pack(p, t, r))` succeeds with payload `p`, message type `t` and
priority `r` (the pack-side trace id is a 36-byte ASCII UUID and the
timestamp fits 32 bits); `unpack` rejects byte strings shorter than the
52-byte header; and every successful unpack implies the buffer passed
the decoder's checks — payload length equal to the declared size, CRC-32
equal to the declared checksum, and known message-type and priority
bytes.  (The unamended totality of failure is false: `unpack` checks
neither version nor trace-id shape, see the counterexample.) -/
theorem c1_pack_unpack_amended :
    (∀ (alg : CompAlg) (compress : Bytes → Bytes)
        (decomp : CompAlg → Bytes → Option Bytes)
        (traceId : Bytes) (ts : Nat) (payload : Bytes) (t : MessageType) (r : Priority),
        traceId.length = 36 → (∀ x ∈ traceId, x < 128) → ts < 2 ^ 32 →
        (compress payload).length < 2 ^ 32 →
        decomp alg (compress payload) = some payload →
        ∃ m, Protocol.unpack decomp (Protocol.pack alg compress traceId ts payload t r) =
            .ok m ∧
          m.payload = payload ∧ m.header.msgType = t ∧ m.header.priority = r) ∧
    (∀ (decomp : CompAlg → Bytes → Option Bytes) (b : Bytes),
        b.length < 52 → Protocol.unpack decomp b = .error .headerTooShort) ∧
    (∀ (decomp : CompAlg → Bytes → Option Bytes) (b : Bytes) (m : Message),
        Protocol.unpack decomp b = .ok m →
        52 ≤ b.length ∧ (b.drop 52).length = m.header.payloadSize ∧
        crc32 (b.drop 52) = m.header.checksum ∧
        MessageType.ofByte (byteAt b 1) = some m.header.msgType ∧
        Priority.ofByte (byteAt b 3) = some m.header.priority) := by
  refine ⟨?_, ?_, ?_⟩
  · intro alg compress decomp traceId ts payload t r htr hascii hts hcplen hdecomp
    have hck := crc32_lt (compress payload)
    have hdata : Protocol.pack alg compress traceId ts payload t r =
        ([1, t.toByte, alg.firstByte, r.toByte] ++ traceId) ++
          (u32be ts ++ (u32be (compress payload).length ++
            (u32be (crc32 (compress payload)) ++ compress payload))) := by
      simp only [Protocol.pack, headerPack, fit36_eq htr, List.append_assoc]
    have hPlen : ([1, t.toByte, alg.firstByte, r.toByte] ++ traceId).length = 40 := by
      simp [htr]
    have hdata2 : Protocol.pack alg compress traceId ts payload t r =
        (([1, t.toByte, alg.firstByte, r.toByte] ++ traceId) ++ u32be ts) ++
          (u32be (compress payload).length ++
            (u32be (crc32 (compress payload)) ++ compress payload)) := by
      rw [hdata]
      exact (List.append_assoc _ _ _).symm
    have hdata3 : Protocol.pack alg compress traceId ts payload t r =
        ((([1, t.toByte, alg.firstByte, r.toByte] ++ traceId) ++ u32be ts) ++
          u32be (compress payload).length) ++
          (u32be (crc32 (compress payload)) ++ compress payload) := by
      rw [hdata2]
      exact (List.append_assoc _ _ _).symm
    have hdata4 : Protocol.pack alg compress traceId ts payload t r =
        (((([1, t.toByte, alg.firstByte, r.toByte] ++ traceId) ++ u32be ts) ++
          u32be (compress payload).length) ++ u32be (crc32 (compress payload))) ++
          compress payload := by
      rw [hdata3]
      exact (List.append_assoc _ _ _).symm
    have hlen : (Protocol.pack alg compress traceId ts payload t r).length =
        52 + (compress payload).length := by
      rw [hdata]
      simp [htr, u32be]
      omega
    have e0 : byteAt (Protocol.pack alg compress traceId ts payload t r) 0 = 1 := by
      rw [hdata]; rfl
    have e1 : byteAt (Protocol.pack alg compress traceId ts payload t r) 1 =
        t.toByte := by rw [hdata]; rfl
    have e2 : byteAt (Protocol.pack alg compress traceId ts payload t r) 2 =
        alg.firstByte := by rw [hdata]; rfl
    have e3 : byteAt (Protocol.pack alg compress traceId ts payload t r) 3 =
        r.toByte := by rw [hdata]; rfl
    have etr : ((Protocol.pack alg compress traceId ts payload t r).drop 4).take 36 =
        traceId := by
      rw [hdata, List.append_assoc, List.cons_append, List.cons_append,
        List.cons_append, List.cons_append, List.nil_append]
      show ((traceId ++ _).take 36) = traceId
      exact List.take_left' htr
    have e40 : readU32 (Protocol.pack alg compress traceId ts payload t r) 40 = ts := by
      rw [hdata, show (40 : Nat) =
        ([1, t.toByte, alg.firstByte, r.toByte] ++ traceId).length from hPlen.symm]
      exact readU32_at _ _ ts hts
    have e44 : readU32 (Protocol.pack alg compress traceId ts payload t r) 44 =
        (compress payload).length := by
      rw [hdata2, show (44 : Nat) =
        (([1, t.toByte, alg.firstByte, r.toByte] ++ traceId) ++ u32be ts).length from
          by simp [hPlen, u32be, htr]]
      exact readU32_at _ _ _ hcplen
    have e48 : readU32 (Protocol.pack alg compress traceId ts payload t r) 48 =
        crc32 (compress payload) := by
      rw [hdata3, show (48 : Nat) =
        ((([1, t.toByte, alg.firstByte, r.toByte] ++ traceId) ++ u32be ts) ++
          u32be (compress payload).length).length from by simp [hPlen, u32be, htr]]
      exact readU32_at _ _ _ hck
    have edrop : (Protocol.pack alg compress traceId ts payload t r).drop 52 =
        compress payload := by
      rw [hdata4]
      exact List.drop_left' (by simp [hPlen, u32be, htr])
    have hnotshort : ¬ ((Protocol.pack alg compress traceId ts payload t r).length < 52) := by
      omega
    have hhdr : MessageHeader.unpack (Protocol.pack alg compress traceId ts payload t r) =
        .ok { version := 1, msgType := t, compression := alg, priority := r,
              traceId := stripNul traceId, timestamp := ts,
              payloadSize := (compress payload).length,
              checksum := crc32 (compress payload) } := by
      simp only [MessageHeader.unpack, HEADER_SIZE, hnotshort, if_false, e0, e1, e2, e3,
        etr, e40, e44, e48, MessageType.msgTypeOfByte_toByte, Priority.priorityOfByte_toByte,
        utf8Valid_ascii hascii, if_true, compOfByte_firstByte]
    refine ⟨⟨⟨1, t, alg, r, stripNul traceId, ts, (compress payload).length,
      crc32 (compress payload)⟩, payload⟩, ?_, rfl, rfl, rfl⟩
    simp only [Protocol.unpack, HEADER_SIZE, hhdr, edrop]
    simp [hdecomp]
  · intro decomp b hb
    simp [Protocol.unpack, MessageHeader.unpack, HEADER_SIZE, hb]
  · intro decomp b m h
    rcases hh : MessageHeader.unpack b with e | hd
    · simp [Protocol.unpack, hh] at h
    · have hinv := MessageHeader.unpack_ok_inv hh
      simp only [Protocol.unpack, HEADER_SIZE, hh] at h
      by_cases h1 : (b.drop 52).length ≠ hd.payloadSize
      · rw [if_pos h1] at h
        cases h
      · rw [if_neg h1] at h
        by_cases h2 : crc32 (b.drop 52) ≠ hd.checksum
        · rw [if_pos h2] at h
          cases h
        · rw [if_neg h2] at h
          rcases hdm : decomp hd.compression (b.drop 52) with _ | p <;> rw [hdm] at h
          · cases h
          · have hm := (Except.ok.injEq _ _).mp h.symm
            have hhd : m.header = hd := by rw [hm]
            rw [hhd]
            push_neg at h1 h2
            exact ⟨hinv.1, h1, h2, hinv.2.1, hinv.2.2.1⟩

/-- Witness for C1: the three amended parts at concrete inputs — payload
`[7]`, REQUEST/NORMAL, an all-'0' 36-byte trace id, identity compression;
the empty byte string for the too-short part; and the accepted concrete
buffer for the consistency part. -/
theorem c1_witness :
    (∃ m, Protocol.unpack (fun _ bs => some bs)
        (Protocol.pack .none id (List.replicate 36 48) 0 [7] .request .normal) =
          .ok m ∧
        m.payload = [7] ∧ m.header.msgType = .request ∧ m.header.priority = .normal) ∧
    Protocol.unpack (fun _ bs => some bs) [] = .error .headerTooShort ∧
    (52 ≤ ([1, 1, 110, 0] ++ List.replicate 48 0 : Bytes).length ∧
      (([1, 1, 110, 0] ++ List.replicate 48 0 : Bytes).drop 52).length =
        ({ version := 1, msgType := .request, compression := .none, priority := .low,
           traceId := [], timestamp := 0, payloadSize := 0,
           checksum := 0 } : MessageHeader).payloadSize ∧
      crc32 (([1, 1, 110, 0] ++ List.replicate 48 0 : Bytes).drop 52) =
        ({ version := 1, msgType := .request, compression := .none, priority := .low,
           traceId := [], timestamp := 0, payloadSize := 0,
           checksum := 0 } : MessageHeader).checksum ∧
      MessageType.ofByte (byteAt ([1, 1, 110, 0] ++ List.replicate 48 0 : Bytes) 1) =
        some ({ version := 1, msgType := .request, compression := .none,
                priority := .low, traceId := [], timestamp := 0, payloadSize := 0,
                checksum := 0 } : MessageHeader).msgType ∧
      Priority.ofByte (byteAt ([1, 1, 110, 0] ++ List.replicate 48 0 : Bytes) 3) =
        some ({ version := 1, msgType := .request, compression := .none,
                priority := .low, traceId := [], timestamp := 0, payloadSize := 0,
                checksum := 0 } : MessageHeader).priority) :=
  ⟨c1_pack_unpack_amended.1 .none id (fun _ bs => some bs) (List.replicate 36 48) 0 [7]
      .request .normal (by decide) (by decide) (by norm_num) (by norm_num) rfl,
   c1_pack_unpack_amended.2.1 (fun _ bs => some bs) [] (by decide),
   c1_pack_unpack_amended.2.2 (fun _ bs => some bs)
     ([1, 1, 110, 0] ++ List.replicate 48 0)
     { header := { version := 1, msgType := .request, compression := .none,
                   priority := .low, traceId := [], timestamp := 0, payloadSize := 0,
                   checksum := 0 },
       payload := [] } rfl⟩

/-! ### Helper lemmas for the framing-B decoder -/

theorem xor_pow_ne (n k : Nat) : n ^^^ 2 ^ k ≠ n := by
  intro h
  have h2 : n ^^^ (n ^^^ 2 ^ k) = n ^^^ n := congrArg (n ^^^ ·) h
  rw [← Nat.xor_assoc, Nat.xor_self, Nat.zero_xor] at h2
  have h3 : 0 < 2 ^ k := Nat.pos_pow_of_pos k (by norm_num)
  omega

theorem byteAt_set_self {l : Bytes} {i : Nat} (v : Nat) (h : i < l.length) :
    byteAt (l.set i v) i = v := by
  simp [byteAt, List.getD, List.getElem?_set_self h]

theorem byteAt_set_ne {l : Bytes} {i j : Nat} (v : Nat) (h : i ≠ j) :
    byteAt (l.set i v) j = byteAt l j := by
  simp [byteAt, List.getD, List.getElem?_set_ne h]

theorem unpack_badMagic {J : Type} (jsonLoads : Bytes → Option J) (d : Bytes)
    (hlen : 2 ≤ d.length) (hm : byteAt d 0 * 256 + byteAt d 1 ≠ 0xAEBD) :
    unpack_response jsonLoads d = .error .badMagic := by
  simp only [unpack_response]
  rw [if_neg (by omega), if_pos hm]

theorem unpack_badVersion {J : Type} (jsonLoads : Bytes → Option J) (d : Bytes)
    (h0 : byteAt d 0 = 174) (h1 : byteAt d 1 = 189) (hlen : 3 ≤ d.length)
    (hv : byteAt d 2 ≠ 1) :
    unpack_response jsonLoads d = .error .badVersion := by
  simp only [unpack_response]
  rw [if_neg (by omega), if_neg (by rw [h0, h1]; norm_num), if_neg (by omega),
    if_pos hv]

theorem unpack_incompleteBody {J : Type} (jsonLoads : Bytes → Option J) (d : Bytes)
    (h0 : byteAt d 0 = 174) (h1 : byteAt d 1 = 189) (h2 : byteAt d 2 = 1)
    (hlen : 7 ≤ d.length) (hlt : d.length < 7 + readU32 d 3) :
    unpack_response jsonLoads d = .error .incompleteBody := by
  simp only [unpack_response]
  rw [if_neg (by omega), if_neg (by rw [h0, h1]; norm_num), if_neg (by omega),
    if_neg (by rw [h2]; omega), if_neg (by omega), if_pos hlt]

theorem pack_message_shape (msgId method param : Bytes) (hm : msgId.length = 36) :
    ∃ R : Bytes,
      pack_message msgId method param = [174, 189, 1, 0, 36] ++ (msgId ++ R) ∧
      R.length = 10 + method.length + param.length := by
  refine ⟨u16be method.length ++ (method ++ (u32be param.length ++ (param ++
    u32be (crc32 ([0xAE, 0xBD, 0x01] ++ u16be msgId.length ++ msgId ++
      u16be method.length ++ method ++ u32be param.length ++ param))))), ?_, ?_⟩
  · simp only [pack_message, hm]
    have hu : u16be 36 = [0, 36] := rfl
    simp [hu, List.append_assoc]
  · simp [u16be, u32be]
    omega

/-- C2 (counterexample): flipping bit 0 of byte 48 — a parameter byte,
outside the header region — of a `pack_message` buffer (message id
`uuid0`, method byte 100, params bytes 123 125) makes `unpack_response`
fail with the incomplete-body error, not any checksum mismatch: the
decoder performs no checksum verification (its error cases are magic,
version, length and JSON failures only).  And a well-formed response
buffer followed by three bytes of trailing garbage is decoded
successfully, refuting the claim that the decoder fails on trailing
garbage. -/
theorem c2_bitflip_error_not_checksum :
    unpack_response (fun _ => (Option.none : Option Unit))
        (flipBit (pack_message uuid0 [100] [123, 125]) 48 0) =
      .error .incompleteBody ∧
    unpack_response (fun bs => if bs = [123, 125] then some () else Option.none)
        (([174, 189, 1] : Bytes) ++ (u32be 2 ++ ([123, 125] ++ [9, 9, 9]))) =
      .ok () := by
  exact ⟨rfl, rfl⟩

/-- C2 (amended): `unpack_response` verifies no checksum.  On every
buffer produced by `pack_message` (method plus params under ~2.3 MB) it
fails with the incomplete-body `IPCProtocolError` — the request layout is
misread as a response, so the declared body length lands inside the
36-byte message id and exceeds the buffer; flipping any single bit of
such a buffer (method plus params under ~256 KB) still yields an
`IPCProtocolError` (magic, version, or incomplete body — never a
checksum mismatch, which the decoder cannot produce); and the decoder
accepts trailing garbage, reading exactly `body_len` bytes from offset 7
and never consuming past `7 + body_len`. -/
theorem c2_unpack_response_amended :
    (∀ (msgId method param : Bytes) (J : Type) (jsonLoads : Bytes → Option J),
        msgId.length = 36 → method.length + param.length < 2359252 →
        unpack_response jsonLoads (pack_message msgId method param) =
          .error .incompleteBody) ∧
    (∀ (msgId method param : Bytes) (J : Type) (jsonLoads : Bytes → Option J)
        (i k : Nat),
        msgId.length = 36 → method.length + param.length < 262100 → k < 8 →
        ∃ e, unpack_response jsonLoads
            (flipBit (pack_message msgId method param) i k) = .error e) ∧
    (∀ (J : Type) (jsonLoads : Bytes → Option J) (body garbage : Bytes) (j : J),
        body.length < 2 ^ 32 → jsonLoads body = some j →
        unpack_response jsonLoads
          (([174, 189, 1] : Bytes) ++ (u32be body.length ++ (body ++ garbage))) =
          .ok j) := by
  refine ⟨?_, ?_, ?_⟩
  · intro msgId method param J jsonLoads hm hbound
    obtain ⟨R, hR, hRlen⟩ := pack_message_shape msgId method param hm
    have hdlen : (pack_message msgId method param).length =
        51 + method.length + param.length := by
      rw [hR]
      simp [hm, hRlen]
      omega
    have h0 : byteAt (pack_message msgId method param) 0 = 174 := by rw [hR]; rfl
    have h1 : byteAt (pack_message msgId method param) 1 = 189 := by rw [hR]; rfl
    have h2 : byteAt (pack_message msgId method param) 2 = 1 := by rw [hR]; rfl
    have h3 : byteAt (pack_message msgId method param) 3 = 0 := by rw [hR]; rfl
    have h4 : byteAt (pack_message msgId method param) 4 = 36 := by rw [hR]; rfl
    apply unpack_incompleteBody jsonLoads _ h0 h1 h2 (by omega)
    have e : readU32 (pack_message msgId method param) 3 =
        byteAt (pack_message msgId method param) 3 * 2 ^ 24 +
        byteAt (pack_message msgId method param) 4 * 2 ^ 16 +
        byteAt (pack_message msgId method param) 5 * 256 +
        byteAt (pack_message msgId method param) 6 := by norm_num [readU32]
    rw [e, h3, h4]
    omega
  · intro msgId method param J jsonLoads i k hm hbound hk
    obtain ⟨R, hR, hRlen⟩ := pack_message_shape msgId method param hm
    have hdlen : (pack_message msgId method param).length =
        51 + method.length + param.length := by
      rw [hR]
      simp [hm, hRlen]
      omega
    have h0 : byteAt (pack_message msgId method param) 0 = 174 := by rw [hR]; rfl
    have h1 : byteAt (pack_message msgId method param) 1 = 189 := by rw [hR]; rfl
    have h2 : byteAt (pack_message msgId method param) 2 = 1 := by rw [hR]; rfl
    have h3 : byteAt (pack_message msgId method param) 3 = 0 := by rw [hR]; rfl
    have h4 : byteAt (pack_message msgId method param) 4 = 36 := by rw [hR]; rfl
    simp only [flipBit]
    have hlen2 : ((pack_message msgId method param).set i
        (byteAt (pack_message msgId method param) i ^^^ 2 ^ k)).length =
        51 + method.length + param.length := by
      rw [List.length_set, hdlen]
    have main : ∀ d2 : Bytes, d2.length = 51 + method.length + param.length →
        byteAt d2 0 = 174 → byteAt d2 1 = 189 → byteAt d2 2 = 1 →
        4 ≤ byteAt d2 4 →
        unpack_response jsonLoads d2 = .error .incompleteBody := by
      intro d2 hl2 a0 a1 a2 a4
      apply unpack_incompleteBody jsonLoads _ a0 a1 a2 (by omega)
      have e : readU32 d2 3 = byteAt d2 3 * 2 ^ 24 + byteAt d2 4 * 2 ^ 16 +
          byteAt d2 5 * 256 + byteAt d2 6 := by norm_num [readU32]
      omega
    by_cases hge : 7 ≤ i
    · refine ⟨.incompleteBody, main _ hlen2 ?_ ?_ ?_ ?_⟩ <;>
        rw [byteAt_set_ne _ (by omega)] <;> omega
    · interval_cases i
      · refine ⟨.badMagic, unpack_badMagic jsonLoads _ (by omega) ?_⟩
        rw [byteAt_set_self _ (by omega), byteAt_set_ne _ (by omega), h0, h1]
        intro heq
        have hx : 174 ^^^ 2 ^ k = 174 := by omega
        exact xor_pow_ne 174 k hx
      · refine ⟨.badMagic, unpack_badMagic jsonLoads _ (by omega) ?_⟩
        rw [byteAt_set_self _ (by omega), byteAt_set_ne _ (by omega), h0, h1]
        intro heq
        have hx : 189 ^^^ 2 ^ k = 189 := by omega
        exact xor_pow_ne 189 k hx
      · refine ⟨.badVersion, unpack_badVersion jsonLoads _ ?_ ?_ (by omega) ?_⟩
        · rw [byteAt_set_ne _ (by omega)]; exact h0
        · rw [byteAt_set_ne _ (by omega)]; exact h1
        · rw [byteAt_set_self _ (by omega), h2]
          exact xor_pow_ne 1 k
      · refine ⟨.incompleteBody, main _ hlen2 ?_ ?_ ?_ ?_⟩
        · rw [byteAt_set_ne _ (by omega)]; omega
        · rw [byteAt_set_ne _ (by omega)]; omega
        · rw [byteAt_set_ne _ (by omega)]; omega
        · rw [byteAt_set_ne _ (by omega)]; omega
      · refine ⟨.incompleteBody, main _ hlen2 ?_ ?_ ?_ ?_⟩
        · rw [byteAt_set_ne _ (by omega)]; omega
        · rw [byteAt_set_ne _ (by omega)]; omega
        · rw [byteAt_set_ne _ (by omega)]; omega
        · rw [byteAt_set_self _ (by omega), h4]
          interval_cases k <;> decide
      · refine ⟨.incompleteBody, main _ hlen2 ?_ ?_ ?_ ?_⟩ <;>
          rw [byteAt_set_ne _ (by omega)] <;> omega
      · refine ⟨.incompleteBody, main _ hlen2 ?_ ?_ ?_ ?_⟩ <;>
          rw [byteAt_set_ne _ (by omega)] <;> omega
  · intro J jsonLoads body garbage j hblen hj
    have e0 : byteAt (([174, 189, 1] : Bytes) ++
        (u32be body.length ++ (body ++ garbage))) 0 = 174 := rfl
    have e1 : byteAt (([174, 189, 1] : Bytes) ++
        (u32be body.length ++ (body ++ garbage))) 1 = 189 := rfl
    have e2 : byteAt (([174, 189, 1] : Bytes) ++
        (u32be body.length ++ (body ++ garbage))) 2 = 1 := rfl
    have h7 : (([174, 189, 1] : Bytes) ++
        (u32be body.length ++ (body ++ garbage))).length =
        7 + body.length + garbage.length := by
      simp [u32be]
      omega
    have hr3 : readU32 (([174, 189, 1] : Bytes) ++
        (u32be body.length ++ (body ++ garbage))) 3 = body.length := by
      rw [show (3 : Nat) = ([174, 189, 1] : Bytes).length from rfl]
      exact readU32_at _ _ _ hblen
    have hdrop : (([174, 189, 1] : Bytes) ++
        (u32be body.length ++ (body ++ garbage))).drop 7 = body ++ garbage := by
      rw [show ([174, 189, 1] : Bytes) ++ (u32be body.length ++ (body ++ garbage)) =
        (([174, 189, 1] : Bytes) ++ u32be body.length) ++ (body ++ garbage) from
        (List.append_assoc _ _ _).symm]
      exact List.drop_left' (by simp [u32be])
    simp only [unpack_response, hr3]
    rw [if_neg (by omega), if_neg (by rw [e0, e1]; norm_num), if_neg (by omega),
      if_neg (by rw [e2]; omega), if_neg (by omega), if_neg (by omega), hdrop,
      List.take_left, hj]

/-- Witness for C2: the three amended parts at concrete inputs — the
`uuid0` packed request decoded as a response (incomplete body), a bit
flip at byte 5, and a two-byte JSON body followed by one byte of
garbage. -/
theorem c2_witness :
    unpack_response (fun _ => (Option.none : Option Unit))
        (pack_message uuid0 [100] [123, 125]) = .error .incompleteBody ∧
    (∃ e, unpack_response (fun _ => (Option.none : Option Unit))
        (flipBit (pack_message uuid0 [100] [123, 125]) 5 1) = .error e) ∧
    unpack_response (fun bs => if bs = [123, 125] then some () else Option.none)
        (([174, 189, 1] : Bytes) ++
          (u32be ([123, 125] : Bytes).length ++ (([123, 125] : Bytes) ++ [9]))) =
      .ok () :=
  ⟨c2_unpack_response_amended.1 uuid0 [100] [123, 125] Unit _ (by decide) (by decide),
   c2_unpack_response_amended.2.1 uuid0 [100] [123, 125] Unit _ 5 1 (by decide)
     (by decide) (by decide),
   c2_unpack_response_amended.2.2 Unit _ [123, 125] [9] () (by decide) (by decide)⟩

end NeoIPC
